import Mathlib

/-!
Verification development for the `ezmsg-tasks` trial-sequencing core.

The definitions below are shallow embeddings of the run-control loop in
`src/ezmsg/tasks/task.py` (`run_task`, `on_run`, `on_log_started`,
`on_log_stopped`, `pub_triggers`), of the trial-order generation and widget
snapshot in `src/ezmsg/tasks/cuedactiontask.py` (`task_implementation`),
of the reaction/timeout trial branch in `src/ezmsg/tasks/centerouttask.py`
(`task_implementation`), and of `src/ezmsg/tasks/frequencymapper.py`
(`on_class_input`).  Paths are modelled as strings, durations as rationals,
and the external `random.shuffle` as an arbitrary in-place permutation.
-/

namespace EzmsgTasks

/-! ## Trial-order generation (cuedactiontask.py lines 197-200)

The Python loop is
```
trials = []
for _ in range(trials_per_class):
    random.shuffle(classes)
    trials += classes
```
`random.shuffle` permutes the list *in place*, so block `i+1` is a
reshuffle of block `i`, and the list object bound to the `classes` widget
ends up holding the last block.  We model the external `random.shuffle` by
a function `shuffle : ℕ → List α → List α` (one application per loop
iteration) together with the hypothesis that each application is a
permutation. -/

/-- The list of blocks produced by iterations `i, i+1, ..., i+n-1` of the
cued-action trial-order loop, starting from list contents `cur`. -/
def shuffleBlockList (shuffle : ℕ → List α → List α) : ℕ → ℕ → List α → List (List α)
  | _, 0, _ => []
  | i, n+1, cur => shuffle i cur :: shuffleBlockList shuffle (i+1) n (shuffle i cur)

/-- The contents of the (shared, in-place shuffled) `classes` list after
`n` iterations of the trial-order loop. -/
def shuffleFinal (shuffle : ℕ → List α → List α) : ℕ → ℕ → List α → List α
  | _, 0, cur => cur
  | i, n+1, cur => shuffleFinal shuffle (i+1) n (shuffle i cur)

/-- The generated trial order: concatenation of the `trials_per_class`
blocks (`trials += classes` after each in-place shuffle). -/
def genTrials (shuffle : ℕ → List α → List α) (n : ℕ) (classes : List α) : List α :=
  (shuffleBlockList shuffle 0 n classes).flatten

/-- A concrete permutation usable as one run of `random.shuffle`:
reverses the list (every reversal is a permutation). -/
def revShuffle : ℕ → List String → List String := fun _ l => l.reverse

theorem revShuffle_perm : ∀ (i : ℕ) (l : List String), (revShuffle i l).Perm l :=
  fun _ l => l.reverse_perm

theorem shuffleBlockList_mem_perm (shuffle : ℕ → List α → List α)
    (hperm : ∀ i l, (shuffle i l).Perm l) :
    ∀ (n i : ℕ) (cur : List α), ∀ b ∈ shuffleBlockList shuffle i n cur, b.Perm cur := by
  intro n
  induction n with
  | zero => intro i cur b hb; simp [shuffleBlockList] at hb
  | succ m ih =>
    intro i cur b hb
    simp only [shuffleBlockList, List.mem_cons] at hb
    rcases hb with rfl | hb
    · exact hperm i cur
    · exact (ih (i+1) (shuffle i cur) b hb).trans (hperm i cur)

theorem shuffleBlockList_length (shuffle : ℕ → List α → List α) :
    ∀ (n i : ℕ) (cur : List α), (shuffleBlockList shuffle i n cur).length = n := by
  intro n
  induction n with
  | zero => intro i cur; rfl
  | succ m ih => intro i cur; simp [shuffleBlockList, ih]

theorem shuffleFinal_perm (shuffle : ℕ → List α → List α)
    (hperm : ∀ i l, (shuffle i l).Perm l) :
    ∀ (n i : ℕ) (cur : List α), (shuffleFinal shuffle i n cur).Perm cur := by
  intro n
  induction n with
  | zero => intro i cur; exact List.Perm.refl cur
  | succ m ih =>
    intro i cur
    exact (ih (i+1) (shuffle i cur)).trans (hperm i cur)

theorem shuffleBlockList_flatten_length (shuffle : ℕ → List α → List α)
    (hperm : ∀ i l, (shuffle i l).Perm l) :
    ∀ (n i : ℕ) (cur : List α),
      ((shuffleBlockList shuffle i n cur).flatten).length = n * cur.length := by
  intro n
  induction n with
  | zero => intro i cur; simp [shuffleBlockList]
  | succ m ih =>
    intro i cur
    have h1 : (shuffle i cur).length = cur.length := (hperm i cur).length_eq
    simp only [shuffleBlockList, List.flatten_cons, List.length_append,
      ih (i+1) (shuffle i cur), h1]
    ring

theorem genTrials_length (shuffle : ℕ → List α → List α)
    (hperm : ∀ i l, (shuffle i l).Perm l) (n : ℕ) (classes : List α) :
    (genTrials shuffle n classes).length = n * classes.length :=
  shuffleBlockList_flatten_length shuffle hperm n 0 classes

theorem shuffleBlockList_flatten_count [DecidableEq α] (shuffle : ℕ → List α → List α)
    (hperm : ∀ i l, (shuffle i l).Perm l) (c : α) :
    ∀ (n i : ℕ) (cur : List α),
      ((shuffleBlockList shuffle i n cur).flatten).count c = n * cur.count c := by
  intro n
  induction n with
  | zero => intro i cur; simp [shuffleBlockList]
  | succ m ih =>
    intro i cur
    have h1 : (shuffle i cur).count c = cur.count c := (hperm i cur).count_eq c
    simp only [shuffleBlockList, List.flatten_cons, List.count_append,
      ih (i+1) (shuffle i cur), h1]
    ring

theorem shuffleBlockList_aligned_block (shuffle : ℕ → List α → List α)
    (hperm : ∀ i l, (shuffle i l).Perm l) :
    ∀ (n i : ℕ) (cur : List α) (j : ℕ), j < n →
      ((((shuffleBlockList shuffle i n cur).flatten).drop (j * cur.length)).take
        cur.length).Perm cur := by
  intro n
  induction n with
  | zero => intro i cur j hj; omega
  | succ m ih =>
    intro i cur j hj
    have h1 : (shuffle i cur).length = cur.length := (hperm i cur).length_eq
    match j with
    | 0 =>
      simp only [shuffleBlockList, List.flatten_cons, Nat.zero_mul, List.drop_zero]
      rw [List.take_left' h1]
      exact hperm i cur
    | jj + 1 =>
      simp only [shuffleBlockList, List.flatten_cons]
      have hmul : (jj + 1) * cur.length = cur.length + jj * cur.length := by ring
      rw [hmul, ← List.drop_drop, List.drop_left' h1]
      have hblock := ih (i+1) (shuffle i cur) jj (by omega)
      rw [h1] at hblock
      exact hblock.trans (hperm i cur)

/-! ## The run-control loop (task.py `run_task`, lines 159-221)

One iteration of the `while True` supervisor loop, for a body that has
already been resolved to the `SampleTriggerMessage`s it enqueues and the
exception it terminates with.  Observable events, in program order:
 - when a recording subdirectory is given (lines 175-187): `LOGSTART` is
   yielded and the iteration suspends until `recording_started` is set
   (the matching ack has been observed);
 - the `async for` body (lines 194-199): each yielded trigger is enqueued
   with `put_nowait` *before* the `run_event` flag is checked;
 - the `finally` block (lines 209-221): widget cleanup (lines 210-215),
   then, when recording, `LOGSTOP` is yielded and the iteration suspends
   until `recording_stopped` is set (matching stop ack observed).
`TaskEndedEarly` and `TaskComplete` are caught (lines 201-207); any other
exception escapes the generator after the `finally` block has run. -/

/-- How one execution of the task body terminates: the distinguished
`TaskComplete` signal, the distinguished `TaskEndedEarly` signal raised by
the cancellation check, or any other (unexpected) exception. -/
inductive TaskExit
  | complete
  | endedEarly
  | failure
deriving DecidableEq

/-- Observable events of one `run_task` iteration. -/
inductive RunEvent
  | logStart (p : String)
  | ackStartObserved (p : String)
  | enqueueTrigger (t : String)
  | cleanup
  | logStop (p : String)
  | ackStopObserved (p : String)
deriving DecidableEq

/-- Events of the recording-start handshake (task.py lines 175-187): yield
`OUTPUT_LOGSTART` then await `recording_started`; nothing when no
recording subdirectory is configured (lines 189-191). -/
def startEvents : Option String → List RunEvent
  | some p => [RunEvent.logStart p, RunEvent.ackStartObserved p]
  | none => []

/-- Events of the recording-stop handshake in the `finally` block
(task.py lines 217-221): yield `OUTPUT_LOGSTOP` then await
`recording_stopped`; nothing when `recording_path` is `None`. -/
def stopEvents : Option String → List RunEvent
  | some p => [RunEvent.logStop p, RunEvent.ackStopObserved p]
  | none => []

/-- Result of one `run_task` iteration: its ordered event trace, and the
exception escaping the iteration (none when the exit was caught by the
`except TaskEndedEarly` / `except TaskComplete` clauses). -/
structure RunResult where
  trace : List RunEvent
  propagated : Option TaskExit
deriving DecidableEq

/-- One iteration of `run_task` (task.py lines 159-221): the start
handshake, the enqueue of each trigger yielded by the body, the `finally`
cleanup, and the stop handshake; `TaskComplete` and `TaskEndedEarly` are
swallowed, every other exception propagates (after the `finally`). -/
def run_task_iter (recording : Option String) (enqs : List String)
    (bodyExit : TaskExit) : RunResult :=
  { trace := startEvents recording ++ enqs.map RunEvent.enqueueTrigger
      ++ [RunEvent.cleanup] ++ stopEvents recording,
    propagated := if bodyExit = TaskExit.failure then some bodyExit else none }

/-! ## The cued-action task body under cancellation
(task.py lines 194-199 driving cuedactiontask.py lines 181-239)

The generator suspends in `asyncio.sleep` during pre-run, each ITI, each
stimulus hold and post-run; control returns to the `async for` loop in
`run_task` only at a `yield`, which for the cued-action task happens
exactly once per trial, at stimulus onset (cuedactiontask.py line 223).
The supervisor enqueues the yielded trigger (line 197) and only then
checks `run_event` (line 198), raising `TaskEndedEarly` if it was
cleared.  Hence a stop pressed during any suspension is first observed at
the next yield; `cancel = some c` means the flag is observed cleared at
the check following yield `c` (pressing stop mid-ITI of trial `c`, or
mid-stimulus of trial `c-1`, or pre-run for `c = 0`); `cancel = none`
means stop was never pressed during the run body. -/

/-- Triggers enqueued to `trigger_queue` and the terminating signal for a
cued-action run whose trial order is `ys`, when the cleared `run_event`
flag is first observed at the check after yield `cancel` (if any).  If the
stop happens after the last yield there is no further check and the
generator runs to `raise TaskComplete` (cuedactiontask.py line 235). -/
def cat_body (ys : List String) (cancel : Option ℕ) : List String × TaskExit :=
  match cancel with
  | none => (ys, TaskExit.complete)
  | some c =>
    if c < ys.length then (ys.take (c+1), TaskExit.endedEarly)
    else (ys, TaskExit.complete)

/-! ## Widget cleanup in the `finally` block (task.py lines 210-215) -/

/-- Operator-control widget state touched by `run_task`. -/
structure Controls where
  runEvent : Bool
  runButtonName : String
  runButtonDisabled : Bool
  subdirDisabled : Bool
deriving DecidableEq

/-- The unconditional widget cleanup of the `finally` block (task.py
lines 210-215): clear `run_event`, reset and re-enable the run button,
re-enable the recording-subdirectory input. -/
def finallyCleanup (_ : Controls) : Controls :=
  { runEvent := false,
    runButtonName := "Start Run",
    runButtonDisabled := false,
    subdirDisabled := false }

/-! ## The run button callback (task.py lines 92-102) and start signal

`on_run` is the single operator control: a toggle.  If `run_event` is set
(a run is in progress) the click renames the button to `Stopping...`,
disables it, and *clears* `run_event` — the cancellation path.  Otherwise
it renames to `Starting...`, disables the button and sets `run_event`,
releasing the supervisor's `await run_event.wait()` (task.py line 165).
`asyncio.Event.set` itself (the underlying start signal) is modelled by
`setEvent`. -/

/-- The `on_run` click handler (task.py lines 92-100), acting on the
control-widget state. -/
def on_run (s : Controls) : Controls :=
  if s.runEvent then
    { s with runButtonName := "Stopping...", runButtonDisabled := true, runEvent := false }
  else
    { s with runButtonName := "Starting...", runButtonDisabled := true, runEvent := true }

/-- `asyncio.Event.set` on `run_event`: the primitive start signal
released towards `await run_event.wait()`. -/
def setEvent (s : Controls) : Controls :=
  { s with runEvent := true }

/-- Where the supervisor coroutine currently is: parked at
`await self.STATE.run_event.wait()` (task.py line 165), or executing the
run body. -/
inductive CtlPhase
  | atWait
  | running
deriving DecidableEq

/-- Supervisor state: its phase, the `run_event` flag, and how many run
sessions have been started so far. -/
structure Supervisor where
  phase : CtlPhase
  ev : Bool
  sessions : ℕ
deriving DecidableEq

/-- One scheduling step of the supervisor: the `await run_event.wait()`
completes (starting a new session) exactly when the supervisor is parked
at the wait and the event is set; while the body is executing, the event
flag has no further effect (there is no second wait until the loop
returns to its top). -/
def supervisorStep (c : Supervisor) : Supervisor :=
  match c.phase with
  | CtlPhase.atWait =>
    if c.ev then { phase := CtlPhase.running, ev := c.ev, sessions := c.sessions + 1 }
    else c
  | CtlPhase.running => c

/-! ## Recording ack handlers (task.py lines 145-155) -/

/-- The recording-handshake state: the current session's target path
(`recording_path`, `None` outside a recording session) and the two ack
events. -/
structure AckState where
  recording_path : Option String
  recording_started : Bool
  recording_stopped : Bool
deriving DecidableEq

/-- `on_log_started` (task.py lines 145-149): set `recording_started`
only when the acked path equals the current `recording_path`. -/
def on_log_started (s : AckState) (msg : String) : AckState :=
  if some msg = s.recording_path then { s with recording_started := true } else s

/-- `on_log_stopped` (task.py lines 151-155): set `recording_stopped`
only when the acked path equals the current `recording_path`. -/
def on_log_stopped (s : AckState) (msg : String) : AckState :=
  if some msg = s.recording_path then { s with recording_stopped := true } else s

/-! ## The trigger queue and publisher (task.py lines 135, 139-143, 197)

`trigger_queue = asyncio.Queue()` is created with no `maxsize`, so it is
unbounded and `put_nowait` always succeeds without suspending.  The
producer is the supervisor loop (`put_nowait`, line 197); the consumer is
`pub_triggers` (lines 139-143), which repeatedly awaits `get` and yields
the dequeued trigger downstream. -/

/-- An operation on the trigger queue: a `put_nowait` by the sequencer,
or one iteration of the `pub_triggers` loop (a `get` that forwards the
head downstream when the queue is non-empty, and merely suspends
otherwise). -/
inductive QOp
  | enq (t : String)
  | deq
deriving DecidableEq

/-- Queue contents plus the triggers forwarded downstream so far. -/
structure QState where
  queue : List String
  forwarded : List String
deriving DecidableEq

/-- One queue operation.  `put_nowait` appends to the tail and always
succeeds (unbounded queue, never suspends); a `pub_triggers` iteration
removes the head and forwards it downstream. -/
def qstep (s : QState) : QOp → QState
  | QOp.enq t => { s with queue := s.queue ++ [t] }
  | QOp.deq =>
    match s.queue with
    | [] => s
    | t :: rest => { queue := rest, forwarded := s.forwarded ++ [t] }

/-- Run a sequence of queue operations. -/
def runQOps (s : QState) (ops : List QOp) : QState :=
  ops.foldl qstep s

/-- The triggers enqueued by a sequence of operations, in order. -/
def enqueuedOf (ops : List QOp) : List String :=
  ops.filterMap fun op =>
    match op with
    | QOp.enq t => some t
    | QOp.deq => none

/-! ## Center-out reaction trial (centerouttask.py lines 230-260)

Per trial the task waits up to `trial_dur` seconds for the button-press
event (`asyncio.wait_for`, line 233).  On a response after `rxn` seconds
it yields a `CenterOutRxnMessage` with `period = (-rxn, 0.0)`; on expiry
the `except` branch yields `period = (-trial_dur, 0.0)` with
`trial_duration = trial_dur` and the loop continues — the timeout is not
re-raised.  Times are modelled as exact rationals. -/

/-- The fields of `CenterOutRxnMessage` relevant to the trigger window
(centerouttask.py lines 21-28): the sample period (start offset, end
offset) relative to the anchor, the class value, the recorded trial
duration and the stimulus location. -/
structure CenterOutRxn where
  periodStart : ℚ
  periodEnd : ℚ
  value : String
  trial_duration : ℚ
  stimulus_location : String
deriving DecidableEq

/-- The message yielded when the participant responds after `rxn` seconds
(centerouttask.py lines 237-245). -/
def responseTrigger (rxn : ℚ) (loc : String) : CenterOutRxn :=
  { periodStart := -rxn, periodEnd := 0, value := loc,
    trial_duration := rxn, stimulus_location := loc }

/-- The message yielded by the `except` (timeout) branch
(centerouttask.py lines 248-260). -/
def timeoutTrigger (trial_dur : ℚ) (loc : String) : CenterOutRxn :=
  { periodStart := -trial_dur, periodEnd := 0, value := loc,
    trial_duration := trial_dur, stimulus_location := loc }

/-- Outcome of one center-out trial's response wait: a yielded message
(the loop then continues to the next trial) or an exception escaping the
trial loop. -/
inductive TrialOutcome
  | emitted (m : CenterOutRxn)
  | errorRaised
deriving DecidableEq

/-- One center-out response wait (centerouttask.py lines 232-260):
if the button-press event wins the race within `trial_dur`, the response
branch message is yielded; on timeout the `except` branch yields the
fallback message.  Neither branch raises. -/
def centerOutTrialResult (responded : Bool) (rxn trial_dur : ℚ)
    (loc : String) : TrialOutcome :=
  if responded then TrialOutcome.emitted (responseTrigger rxn loc)
  else TrialOutcome.emitted (timeoutTrigger trial_dur loc)

/-! ## Frequency mapper (frequencymapper.py lines 18-24) -/

/-- `on_class_input`: for each message on `INPUT_CLASS`, exactly one
message is yielded on `OUTPUT_FREQUENCY` — `mapping.get(msg, None)` when
`msg` is not `None`, else `None`.  The returned list is the (length-one)
list of published outputs. -/
def on_class_input (mapping : List (String × ℚ)) (msg : Option String) :
    List (Option ℚ) :=
  [match msg with
   | none => none
   | some m => mapping.lookup m]

/-! ## Cued-action widget snapshot (cuedactiontask.py lines 186-200)

The "snapshot" binds local names to the current widget values.  Scalars
are copied by value, but `classes = self.STATE.classes.value` binds the
very list object held by the `classes` widget, and `random.shuffle`
(line 199) permutes that object *in place*: after the trial-order loop the
widget's list holds the last shuffled block. -/

/-- The cued-action parameter widgets read at run start
(cuedactiontask.py lines 187-194). -/
structure CatWidgets where
  classes : List String
  trials_per_class : ℕ
  trial_duration : ℚ
  intertrial_min_dur : ℚ
  intertrial_max_dur : ℚ
  intertrial_stimulus : String
  pre_run_duration : ℚ
  post_run_duration : ℚ
deriving DecidableEq

/-- Effect of one cued-action run on the widget state: the trial-order
loop shuffles the shared `classes` list in place `trials_per_class`
times, leaving it holding the final block; no other widget value is
written by the run body. -/
def runWidgetEffect (shuffle : ℕ → List String → List String)
    (w : CatWidgets) : CatWidgets :=
  { w with classes := shuffleFinal shuffle 0 w.trials_per_class w.classes }

/-! # Claims -/

/-- Claim C2: for every non-empty duplicate-free class set of size `k` and
every trials-per-class `n ≥ 1`, the generated trial order has length `k*n`,
each class appears exactly `n` times, and within every contiguous block of
`k` trials whose boundary is aligned to a multiple of `k` each class appears
exactly once. -/
theorem claim_C2_trial_order (shuffle : ℕ → List String → List String)
    (hperm : ∀ i l, (shuffle i l).Perm l)
    (classes : List String) (n : ℕ)
    (hne : classes ≠ []) (hnd : classes.Nodup) (hn : 1 ≤ n) :
    (genTrials shuffle n classes).length = classes.length * n
    ∧ (∀ c ∈ classes, (genTrials shuffle n classes).count c = n)
    ∧ (∀ j < n, ∀ c ∈ classes,
        (((genTrials shuffle n classes).drop (j * classes.length)).take
          classes.length).count c = 1) := by
  refine ⟨?_, ?_, ?_⟩
  · rw [genTrials_length shuffle hperm n classes, Nat.mul_comm]
  · intro c hc
    have h := shuffleBlockList_flatten_count shuffle hperm c n 0 classes
    rw [List.count_eq_one_of_mem hnd hc, Nat.mul_one] at h
    exact h
  · intro j hj c hc
    have hb := shuffleBlockList_aligned_block shuffle hperm n 0 classes j hj
    simp only [genTrials]
    rw [hb.count_eq c]
    exact List.count_eq_one_of_mem hnd hc

/-- Witness for C2 at the concrete input `classes = ["A", "B"]`, `n = 2`,
with the reversal permutation standing for `random.shuffle`. -/
theorem claim_C2_witness :
    (genTrials revShuffle 2 ["A", "B"]).length = (["A", "B"] : List String).length * 2
    ∧ (∀ c ∈ (["A", "B"] : List String), (genTrials revShuffle 2 ["A", "B"]).count c = 2)
    ∧ (∀ j < 2, ∀ c ∈ (["A", "B"] : List String),
        (((genTrials revShuffle 2 ["A", "B"]).drop
          (j * (["A", "B"] : List String).length)).take
          (["A", "B"] : List String).length).count c = 1) :=
  claim_C2_trial_order revShuffle revShuffle_perm ["A", "B"] 2
    (by decide) (by decide) (by decide)

/-- Counterexample for C1: with the single-trial order `["A"]`, a stop
raised mid-ITI of trial 0 is first observed at the check after yield 0,
*after* `put_nowait` has already enqueued trial 0's trigger (task.py
lines 196-198), so the interrupted trial's trigger reaches the publisher
queue; and a stop raised mid-stimulus of the final trial is never observed
(no further yield), so the run terminates with `TaskComplete`, not the
ended-early signal. -/
theorem claim_C1_counterexample :
    (cat_body ["A"] (some 0)).1 = ["A"]
    ∧ RunEvent.enqueueTrigger "A" ∈
        (run_task_iter none (cat_body ["A"] (some 0)).1 (cat_body ["A"] (some 0)).2).trace
    ∧ (cat_body ["A"] (some 1)).2 = TaskExit.complete := by
  decide

/-- Claim C1 (amended): when the stop signal is observed at the check
following yield `c` with `c` below the number of trials, the supervisor
enqueues the triggers of trials `0..c` — one more trigger, that of the
trial interrupted mid-ITI, reaches the publisher queue — and the run
terminates with `TaskEndedEarly`; no trigger of any trial after `c` is
enqueued.  When the stop is raised after the final yield (mid-stimulus of
the last trial or during post-run), the body runs to completion and the
run terminates with `TaskComplete` instead of the ended-early signal. -/
theorem claim_C1_cancellation (ys : List String) (c : ℕ) :
    (c < ys.length →
      (cat_body ys (some c)).1 = ys.take (c+1)
      ∧ (cat_body ys (some c)).2 = TaskExit.endedEarly)
    ∧ (ys.length ≤ c → cat_body ys (some c) = (ys, TaskExit.complete)) := by
  constructor
  · intro h
    simp [cat_body, h]
  · intro h
    simp [cat_body, Nat.not_lt.mpr h]

/-- Witness for the amended C1 at trial order `["A", "B"]`, stop observed
at yield 0. -/
theorem claim_C1_witness :
    (cat_body ["A", "B"] (some 0)).1 = ["A"]
    ∧ (cat_body ["A", "B"] (some 0)).2 = TaskExit.endedEarly := by
  have h := (claim_C1_cancellation ["A", "B"] 0).1 (by decide)
  simpa using h

/-- Claim C3: in every run with a recording target, the stop-logging
request appears in the iteration trace strictly after the start-logging
ack for the same target has been observed, after every enqueued trigger,
and after the cleanup — i.e. only once the trial loop has fully exited. -/
theorem claim_C3_stop_after_start_ack (p : String) (enqs : List String)
    (e : TaskExit) :
    ∃ pre post,
      (run_task_iter (some p) enqs e).trace = pre ++ RunEvent.logStop p :: post
      ∧ RunEvent.ackStartObserved p ∈ pre
      ∧ RunEvent.cleanup ∈ pre
      ∧ (∀ t, RunEvent.enqueueTrigger t ∈ (run_task_iter (some p) enqs e).trace →
          RunEvent.enqueueTrigger t ∈ pre)
      ∧ post = [RunEvent.ackStopObserved p] := by
  refine ⟨[RunEvent.logStart p, RunEvent.ackStartObserved p]
      ++ enqs.map RunEvent.enqueueTrigger ++ [RunEvent.cleanup],
    [RunEvent.ackStopObserved p], ?_, ?_, ?_, ?_, rfl⟩
  · simp [run_task_iter, startEvents, stopEvents]
  · simp
  · simp
  · intro t ht
    have htr : (run_task_iter (some p) enqs e).trace
        = ([RunEvent.logStart p, RunEvent.ackStartObserved p]
            ++ enqs.map RunEvent.enqueueTrigger ++ [RunEvent.cleanup])
          ++ [RunEvent.logStop p, RunEvent.ackStopObserved p] := by
      simp [run_task_iter, startEvents, stopEvents]
    rw [htr, List.mem_append] at ht
    rcases ht with h | h
    · exact h
    · simp at h

/-- Witness for C3 at a concrete recording target, trigger list and exit. -/
theorem claim_C3_witness :
    ∃ pre post,
      (run_task_iter (some "rec") ["A"] TaskExit.complete).trace
        = pre ++ RunEvent.logStop "rec" :: post
      ∧ RunEvent.ackStartObserved "rec" ∈ pre
      ∧ RunEvent.cleanup ∈ pre
      ∧ (∀ t, RunEvent.enqueueTrigger t ∈
            (run_task_iter (some "rec") ["A"] TaskExit.complete).trace →
          RunEvent.enqueueTrigger t ∈ pre)
      ∧ post = [RunEvent.ackStopObserved "rec"] :=
  claim_C3_stop_after_start_ack "rec" ["A"] TaskExit.complete

/-- Counterexample for C4: an unexpected failure in the task loop is not
caught by the `except TaskEndedEarly` / `except TaskComplete` clauses
(task.py lines 201-207); the `finally` cleanup runs but the exception then
propagates out of the supervisor generator, so the controller does not
reach the top of its `while True` loop (where the status becomes `Idle`)
and the failure escapes the controller. -/
theorem claim_C4_counterexample :
    (run_task_iter none [] TaskExit.failure).propagated = some TaskExit.failure
    ∧ RunEvent.cleanup ∈ (run_task_iter none [] TaskExit.failure).trace := by
  decide

/-- Claim C4 (amended): for every exception raised inside the task loop
the `finally` cleanup runs — the run button and the recording-subdirectory
input are re-enabled and the run event cleared; `TaskComplete` and
`TaskEndedEarly` are caught, so exactly for those exits nothing propagates
beyond the controller and the supervisor loop returns to Idle; any other
exception propagates out of the controller after the cleanup. -/
theorem claim_C4_exception_paths (rec : Option String) (enqs : List String)
    (e : TaskExit) (w : Controls) :
    RunEvent.cleanup ∈ (run_task_iter rec enqs e).trace
    ∧ (finallyCleanup w).runButtonDisabled = false
    ∧ (finallyCleanup w).subdirDisabled = false
    ∧ (finallyCleanup w).runEvent = false
    ∧ ((run_task_iter rec enqs e).propagated = none
        ↔ (e = TaskExit.complete ∨ e = TaskExit.endedEarly)) := by
  refine ⟨?_, rfl, rfl, rfl, ?_⟩
  · simp [run_task_iter]
  · cases e <;> simp [run_task_iter]

/-- Witness for the amended C4 at a concrete failing run. -/
theorem claim_C4_witness :
    RunEvent.cleanup ∈ (run_task_iter none [] TaskExit.failure).trace
    ∧ (finallyCleanup ⟨true, "Stop Run", true, true⟩).runButtonDisabled = false
    ∧ (finallyCleanup ⟨true, "Stop Run", true, true⟩).subdirDisabled = false
    ∧ (finallyCleanup ⟨true, "Stop Run", true, true⟩).runEvent = false
    ∧ ((run_task_iter none [] TaskExit.failure).propagated = none
        ↔ (TaskExit.failure = TaskExit.complete
            ∨ TaskExit.failure = TaskExit.endedEarly)) :=
  claim_C4_exception_paths none [] TaskExit.failure ⟨true, "Stop Run", true, true⟩

/-- Counterexample for C5: the only operator start control is the run
button, and `on_run` is a toggle (task.py lines 92-100): invoked while the
run is in progress (`run_event` set) it *clears* `run_event` — the
cancellation signal the loop checks at line 198 — so the second invocation
is not a no-op and the running session is affected (it will end early); in
particular the handler is not idempotent. -/
theorem claim_C5_counterexample :
    (on_run ⟨true, "Stop Run", false, true⟩).runEvent = false
    ∧ on_run ⟨true, "Stop Run", false, true⟩ ≠ ⟨true, "Stop Run", false, true⟩
    ∧ on_run (on_run ⟨true, "Stop Run", false, true⟩)
        ≠ on_run ⟨true, "Stop Run", false, true⟩ := by
  decide

/-- Claim C5 (amended): no second session ever starts while one is
running — the underlying start signal (`run_event.set()`) is idempotent
and the supervisor, once in the running phase, starts no new session
however the event flag is set again; but the run-button handler itself,
invoked while running, is not a start no-op: it clears `run_event`,
requesting a stop of the running session. -/
theorem claim_C5_no_second_session (s : Controls) (c : Supervisor)
    (h : c.phase = CtlPhase.running) :
    setEvent (setEvent s) = setEvent s
    ∧ supervisorStep { c with ev := true } = { c with ev := true }
    ∧ (supervisorStep { c with ev := true }).sessions = c.sessions
    ∧ (s.runEvent = true → (on_run s).runEvent = false) := by
  refine ⟨rfl, ?_, ?_, ?_⟩
  · simp [supervisorStep, h]
  · simp [supervisorStep, h]
  · intro hs
    simp [on_run, hs]

/-- Witness for the amended C5 at a concrete running supervisor state. -/
theorem claim_C5_witness :
    setEvent (setEvent ⟨true, "Stop Run", false, true⟩)
        = setEvent ⟨true, "Stop Run", false, true⟩
    ∧ supervisorStep ⟨CtlPhase.running, true, 1⟩ = ⟨CtlPhase.running, true, 1⟩
    ∧ (supervisorStep ⟨CtlPhase.running, true, 1⟩).sessions = 1
    ∧ ((⟨true, "Stop Run", false, true⟩ : Controls).runEvent = true →
        (on_run ⟨true, "Stop Run", false, true⟩).runEvent = false) :=
  claim_C5_no_second_session ⟨true, "Stop Run", false, true⟩
    ⟨CtlPhase.running, true, 1⟩ rfl

/-- Claim C6, evaluated at the failing input: with classes `["A", "B"]`
and one trial per class, taking the reversal permutation as the run of
`random.shuffle`, the run itself mutates the operator-facing class list:
`classes = self.STATE.classes.value` aliases the widget's list object and
`random.shuffle(classes)` permutes it in place (cuedactiontask.py lines
187, 199), so after the run the widget's class order is `["B", "A"]` —
not the order `["A", "B"]` it held at run start.  (The multiset of labels
and all scalar parameter values are preserved; only the order mutates.) -/
theorem claim_C6_class_order_mutated :
    (runWidgetEffect revShuffle
      { classes := ["A", "B"], trials_per_class := 1, trial_duration := 4,
        intertrial_min_dur := 1, intertrial_max_dur := 2,
        intertrial_stimulus := "+", pre_run_duration := 3,
        post_run_duration := 3 }).classes = ["B", "A"]
    ∧ (["B", "A"] : List String) ≠ ["A", "B"] :=
  ⟨rfl, by decide⟩

/-- Claim C7: a center-out reaction trial whose response wait expires with
no response and `trial_duration = 4.0` yields a trigger whose window
end-offset is `0.0` and whose window duration is `4.0` (response time
recorded as the full trial duration), via the normal timeout branch — no
error is raised. -/
theorem claim_C7_timeout_window (loc : String) (rxn : ℚ) :
    centerOutTrialResult false rxn 4 loc
        = TrialOutcome.emitted (timeoutTrigger 4 loc)
    ∧ (timeoutTrigger 4 loc).periodEnd = 0
    ∧ (timeoutTrigger 4 loc).periodEnd - (timeoutTrigger 4 loc).periodStart = 4
    ∧ (timeoutTrigger 4 loc).trial_duration = 4
    ∧ centerOutTrialResult false rxn 4 loc ≠ TrialOutcome.errorRaised := by
  refine ⟨rfl, rfl, ?_, rfl, ?_⟩
  · norm_num [timeoutTrigger]
  · simp [centerOutTrialResult]

/-- Claim C8: an ack received on the log-started or log-stopped input
whose target path differs from the current session's recording path leaves
the state untouched: the corresponding started/stopped event is not set,
so the pending handshake wait is not satisfied. -/
theorem claim_C8_mismatched_ack_ignored (s : AckState) (msg : String)
    (h : some msg ≠ s.recording_path) :
    on_log_started s msg = s ∧ on_log_stopped s msg = s := by
  constructor
  · simp [on_log_started, h]
  · simp [on_log_stopped, h]

/-- Witness for C8: an ack for path `"b"` while the session records to
`"a"` is ignored by both handlers. -/
theorem claim_C8_witness :
    on_log_started ⟨some "a", false, false⟩ "b" = ⟨some "a", false, false⟩
    ∧ on_log_stopped ⟨some "a", false, false⟩ "b" = ⟨some "a", false, false⟩ :=
  claim_C8_mismatched_ack_ignored ⟨some "a", false, false⟩ "b" (by decide)

theorem runQOps_invariant : ∀ (ops : List QOp) (s : QState),
    (runQOps s ops).forwarded ++ (runQOps s ops).queue
      = s.forwarded ++ s.queue ++ enqueuedOf ops := by
  intro ops
  induction ops with
  | nil => intro s; simp [runQOps, enqueuedOf]
  | cons op rest ih =>
    intro s
    match op with
    | QOp.enq t =>
      have h := ih (qstep s (QOp.enq t))
      simp only [runQOps, List.foldl_cons] at h ⊢
      rw [h]
      simp [qstep, enqueuedOf, List.filterMap_cons]
    | QOp.deq =>
      have h := ih (qstep s QOp.deq)
      simp only [runQOps, List.foldl_cons] at h ⊢
      rw [h]
      match hq : s.queue with
      | [] => simp [qstep, hq, enqueuedOf, List.filterMap_cons]
      | t :: q =>
        simp [qstep, hq, enqueuedOf, List.filterMap_cons]

theorem runQOps_drain : ∀ (q f : List String),
    runQOps ⟨q, f⟩ (List.replicate q.length QOp.deq) = ⟨[], f ++ q⟩ := by
  intro q
  induction q with
  | nil => intro f; simp [runQOps]
  | cons t rest ih =>
    intro f
    simp only [List.length_cons, List.replicate_succ, runQOps, List.foldl_cons]
    have h := ih (f ++ [t])
    simp only [runQOps] at h
    simpa [qstep] using h

/-- Claim C9: the trigger publisher loses nothing and preserves order:
`put_nowait` on the unbounded queue always succeeds without suspending
(appending the trigger to the tail, regardless of how slowly the consumer
runs); for every sequence of enqueues and publisher iterations, the
triggers forwarded downstream followed by those still queued equal the
enqueued sequence exactly (each event exactly once, FIFO) — so the
forwarded sequence is always a prefix of the enqueued one, and once the
publisher has drained the queue it has forwarded exactly the enqueued
sequence in order. -/
theorem claim_C9_fifo_no_loss (ops : List QOp) :
    (∀ s t, (qstep s (QOp.enq t)).queue = s.queue ++ [t])
    ∧ (runQOps ⟨[], []⟩ ops).forwarded ++ (runQOps ⟨[], []⟩ ops).queue
        = enqueuedOf ops
    ∧ (runQOps ⟨[], []⟩ ops).forwarded <+: enqueuedOf ops
    ∧ (runQOps (runQOps ⟨[], []⟩ ops)
        (List.replicate (runQOps ⟨[], []⟩ ops).queue.length QOp.deq)).forwarded
        = enqueuedOf ops := by
  have hinv := runQOps_invariant ops ⟨[], []⟩
  simp only [List.nil_append] at hinv
  refine ⟨fun s t => rfl, hinv, ?_, ?_⟩
  · rw [← hinv]
    exact List.prefix_append _ _
  · have hd := runQOps_drain (runQOps ⟨[], []⟩ ops).queue
      (runQOps ⟨[], []⟩ ops).forwarded
    rw [show (runQOps ⟨[], []⟩ ops)
        = (⟨(runQOps ⟨[], []⟩ ops).queue, (runQOps ⟨[], []⟩ ops).forwarded⟩ : QState)
      from rfl, hd]
    exact hinv

/-- Witness for C9 at a concrete interleaving: enqueue `A`, one publisher
iteration, enqueue `B` on a still-undrained queue. -/
theorem claim_C9_witness :
    (∀ s t, (qstep s (QOp.enq t)).queue = s.queue ++ [t])
    ∧ (runQOps ⟨[], []⟩ [QOp.enq "A", QOp.deq, QOp.enq "B"]).forwarded
        ++ (runQOps ⟨[], []⟩ [QOp.enq "A", QOp.deq, QOp.enq "B"]).queue
        = enqueuedOf [QOp.enq "A", QOp.deq, QOp.enq "B"]
    ∧ (runQOps ⟨[], []⟩ [QOp.enq "A", QOp.deq, QOp.enq "B"]).forwarded
        <+: enqueuedOf [QOp.enq "A", QOp.deq, QOp.enq "B"]
    ∧ (runQOps (runQOps ⟨[], []⟩ [QOp.enq "A", QOp.deq, QOp.enq "B"])
        (List.replicate
          (runQOps ⟨[], []⟩ [QOp.enq "A", QOp.deq, QOp.enq "B"]).queue.length
          QOp.deq)).forwarded
        = enqueuedOf [QOp.enq "A", QOp.deq, QOp.enq "B"] :=
  claim_C9_fifo_no_loss [QOp.enq "A", QOp.deq, QOp.enq "B"]

/-- Claim C10: for every message on the FrequencyMapper's class input
exactly one message is published on the frequency output; it is the mapped
frequency when the input is a label present in the mapping, and `None`
when the input is `None` or the label is absent. -/
theorem claim_C10_frequency_mapper (mapping : List (String × ℚ))
    (msg : Option String) :
    (on_class_input mapping msg).length = 1
    ∧ (msg = none → on_class_input mapping msg = [none])
    ∧ (∀ m, msg = some m → mapping.lookup m = none →
        on_class_input mapping msg = [none])
    ∧ (∀ m f, msg = some m → mapping.lookup m = some f →
        on_class_input mapping msg = [some f]) := by
  refine ⟨rfl, ?_, ?_, ?_⟩
  · intro h; subst h; rfl
  · intro m hm hl; subst hm; simp [on_class_input, hl]
  · intro m f hm hl; subst hm; simp [on_class_input, hl]

/-- Witness for C10: a mapped label, an unmapped label and a `None` input,
against the mapping `{"GO" ↦ 15}`. -/
theorem claim_C10_witness :
    on_class_input [("GO", (15 : ℚ))] (some "GO") = [some 15]
    ∧ on_class_input [("GO", (15 : ℚ))] (some "REST") = [none]
    ∧ on_class_input [("GO", (15 : ℚ))] none = [none] := by
  refine ⟨?_, ?_, ?_⟩
  · exact (claim_C10_frequency_mapper [("GO", (15 : ℚ))] (some "GO")).2.2.2
      "GO" 15 rfl rfl
  · exact (claim_C10_frequency_mapper [("GO", (15 : ℚ))] (some "REST")).2.2.1
      "REST" rfl rfl
  · exact (claim_C10_frequency_mapper [("GO", (15 : ℚ))] none).2.1 rfl

end EzmsgTasks
